import Mathlib

/-!
Verification development for the LiberaDebt obligation pipeline
(`main.go`): spreadsheet ingestion and validation (`getObligations`),
record normalization and JSON serialization (`formatObligations`),
prompt synthesis and streamed-response collection (`promptOllama`),
and output post-processing and artifact writing (`writeOutFile`).

Numeric model: the Go code works on `float64` values parsed from decimal
cells with `strconv.ParseFloat`.  All values that reach the pipeline are
decimal literals, so they are embedded as exact decimals `num / 10 ^ exp`
(structure `Dec` below), kept in canonical form (no trailing zeros in the
fraction).  Arithmetic on these decimals (scaling by 100, rounding to two
decimal places, comparisons) is exact, mirroring the decimal values the Go
code manipulates.
-/

/-- Exact decimal number with value `num / 10 ^ exp`.  Embeds the `float64`
values of the Go code (which are all parsed from decimal spreadsheet cells
or produced by scaling/rounding them). -/
structure Dec where
  num : Int
  exp : Nat
deriving DecidableEq

/-- Canonical form of `m / 10 ^ k`: strip factors of 10 shared between the
mantissa and the exponent, so that a value has exactly one representation. -/
def Dec.canon (m : Int) : Nat → Dec
  | 0 => ⟨m, 0⟩
  | k + 1 => if m % 10 = 0 then Dec.canon (m / 10) k else ⟨m, k + 1⟩

/-- Value comparison `a ≤ b` on exact decimals (cross multiplication). -/
def Dec.ble (a b : Dec) : Bool :=
  decide (a.num * ((10 ^ b.exp : Nat) : Int) ≤ b.num * ((10 ^ a.exp : Nat) : Int))

/-- Multiplication by 100, as in the Go fraction-to-percent rescale
`interestRateFloat * 100`. -/
def Dec.mul100 (d : Dec) : Dec := Dec.canon (d.num * 100) d.exp

/-- Quotient `a / b` rounded to the nearest integer, ties away
from zero — the rounding mode of Go `math.Round`.  `b` is a positive power
of ten. -/
def roundAwayDiv (a : Int) (b : Nat) : Int :=
  if 0 ≤ a then Int.ofNat ((a.toNat + b / 2) / b)
  else - Int.ofNat (((- a).toNat + b / 2) / b)

/-- Rounding to two decimal places, `math.Round(x*100) / 100`, ties away from
zero, as in `getObligations`. -/
def Dec.round2 (d : Dec) : Dec :=
  if d.exp ≤ 2 then Dec.canon (d.num * ((10 ^ (2 - d.exp) : Nat) : Int)) 2
  else Dec.canon (roundAwayDiv d.num (10 ^ (d.exp - 2))) 2

/-- The decimal digit character for `n < 10`. -/
def digitChar (n : Nat) : Char := Char.ofNat (48 + n)

/-- Decimal digits of `n`, most significant first (`fuel` bounds the
recursion; `n + 1` is always enough). -/
def natReprAux : Nat → Nat → List Char
  | 0, _ => []
  | fuel + 1, n => if n < 10 then [digitChar n] else natReprAux fuel (n / 10) ++ [digitChar (n % 10)]

/-- Decimal representation of a natural number, as printed by Go `%d`. -/
def natRepr (n : Nat) : String := ⟨natReprAux (n + 1) n⟩

/-- Value of a list of decimal digit characters. -/
def digitsToNat (ds : List Char) : Nat := ds.foldl (fun a c => a * 10 + (c.toNat - 48)) 0

/-- Left-pad a digit list with zeros to length `k`. -/
def padZeros (k : Nat) (ds : List Char) : List Char := List.replicate (k - ds.length) '0' ++ ds

/-- Shortest decimal rendering of a canonical `Dec`, as produced by Go
`encoding/json` for a `float64` holding this decimal value (e.g. `150`
rather than `150.00`, `5.99`, `-0.5`).  Exponent notation (used by Go only
for very large or very small magnitudes) is not modelled. -/
def Dec.fmt (d : Dec) : String :=
  let a := d.num.natAbs
  let sign : String := if d.num < 0 then "-" else ""
  if d.exp = 0 then sign ++ natRepr a
  else
    sign ++ natRepr (a / 10 ^ d.exp) ++ "." ++
      ⟨padZeros d.exp (natReprAux (a % 10 ^ d.exp + 1) (a % 10 ^ d.exp))⟩

/-- Two-digit zero-padded rendering of `n < 100`. -/
def pad2 (n : Nat) : String := ⟨padZeros 2 (natReprAux (n + 1) n)⟩

/-- Go `fmt.Sprintf("%.2f", x)`: exactly two digits after the decimal
point, rounding to the nearest representable cent (ties away from zero). -/
def Dec.fmtF2 (d : Dec) : String :=
  let cents := (roundAwayDiv (d.num * 100) (10 ^ d.exp)).natAbs
  let sign : String := if d.num < 0 then "-" else ""
  sign ++ natRepr (cents / 100) ++ "." ++ pad2 (cents % 100)

/-- The whitespace set of Go `strings.TrimSpace` (`unicode.IsSpace`),
restricted to the Latin-1 range: space, tab, newline, vertical tab, form
feed, carriage return, NEL and NBSP. -/
def goIsSpace (c : Char) : Bool :=
  c = ' ' || c = '\t' || c = '\n' || c = '\x0b' || c = '\x0c' || c = '\r' || c = '\x85' || c = '\xa0'

/-- Go `strings.TrimSpace`: drop leading and trailing whitespace. -/
def trimSpace (s : String) : String :=
  ⟨((s.data.dropWhile goIsSpace).reverse.dropWhile goIsSpace).reverse⟩

/-- Core of `strconv.ParseFloat` for plain decimal literals (after the
optional sign): digits with an optional fractional part.  The exotic
`ParseFloat` forms (exponents, hex mantissas, `Inf`, `NaN`, digit-group
underscores) are not modelled; obligation cells are plain decimals. -/
def parseDecimalCore (sign : Int) (cs : List Char) : Option Dec :=
  let ip := cs.takeWhile Char.isDigit
  let r1 := cs.dropWhile Char.isDigit
  match r1 with
  | [] => if ip.isEmpty then none else some (Dec.canon (sign * Int.ofNat (digitsToNat ip)) 0)
  | '.' :: t =>
    let fp := t.takeWhile Char.isDigit
    let r2 := t.dropWhile Char.isDigit
    if r2.isEmpty then
      if ip.isEmpty && fp.isEmpty then none
      else some (Dec.canon (sign * Int.ofNat (digitsToNat (ip ++ fp))) fp.length)
    else none
  | _ => none

/-- Model of `strconv.ParseFloat` on a trimmed cell, yielding the exact decimal
value, or `none` on a malformed number. -/
def parseDecimal (s : String) : Option Dec :=
  match s.data with
  | '-' :: t => parseDecimalCore (-1) t
  | '+' :: t => parseDecimalCore 1 t
  | cs => parseDecimalCore 1 cs

/-- The `Obligation` record of `main.go`.  As in Go, the optional numeric
fields hold the zero value when absent (`remaining_balance` and
`interest_rate` carry `omitempty`). -/
structure Obligation where
  description : String
  type : String
  remainingBalance : Dec
  interestRate : Dec
  monthlyPayment : Dec
deriving DecidableEq

/-- The obligation fields validated or parsed by `getObligations`. -/
inductive ObField where
  | description
  | type
  | monthlyPayment
  | remainingBalance
  | interestRate
deriving DecidableEq

/-- Failure modes of `getObligations`.  `outOfRange` models the Go runtime
panic raised by `row.Cells[i]` on a row with too few cells (the code
indexes cells 0–4 with no bounds check); the other constructors model the
returned `error` values. -/
inductive IngestError where
  | noData
  | outOfRange (rowNum cellIdx : Nat)
  | required (rowNum : Nat) (f : ObField)
  | parseFail (rowNum : Nat) (f : ObField)
deriving DecidableEq

/-- The field label used in the required-field error messages. -/
def requiredLabel : ObField → String
  | ObField.description => "Description"
  | ObField.type => "Type"
  | ObField.monthlyPayment => "Monthly Amount"
  | ObField.remainingBalance => "Remaining Balance"
  | ObField.interestRate => "Interest Rate"

/-- The field label used in the parse-failure error messages. -/
def parseLabel : ObField → String
  | ObField.description => "Description"
  | ObField.type => "Type"
  | ObField.monthlyPayment => "Monthly Payment (required)"
  | ObField.remainingBalance => "Remaining Balance"
  | ObField.interestRate => "Interest Rate"

/-- The Go error message for each ingestion failure (the trailing
`strconv` detail of parse errors and the exact panic text are elided). -/
def errMsg : IngestError → String
  | IngestError.noData => "no obligations (rows of data) exist in XLSX sheet"
  | IngestError.outOfRange rowNum cellIdx =>
      "runtime error: index out of range, row " ++ natRepr rowNum ++ ", cell " ++ natRepr cellIdx
  | IngestError.required rowNum f =>
      "xlsx row " ++ natRepr rowNum ++ ", " ++ requiredLabel f ++ " is required but is empty"
  | IngestError.parseFail rowNum f =>
      "error formatting " ++ parseLabel f ++ " from XLSX row " ++ natRepr rowNum

deriving instance DecidableEq for Except

/-- A spreadsheet row: the list of its cell values. -/
abbrev Row := List String

/-- Predicate `isRowEmpty` from `getObligations`: all cells blank after trimming. -/
def isRowEmpty (row : Row) : Bool := row.all (fun cell => trimSpace cell = "")

/-- The per-row body of the `getObligations` loop, applied to the five cell
values the Go code reads: validate the required fields, parse the numeric
cells, rescale and round the interest rate, and drop optional values equal
to zero (`!= 0.00`). -/
def mkObligation (rowNum : Nat) (c0 c1 c2 c3 c4 : String) : Except IngestError Obligation :=
  let description := trimSpace c0
  let obligationType := trimSpace c1
  let remainingBalance := trimSpace c2
  let interestRate := trimSpace c3
  let monthlyPayment := trimSpace c4
  if description = "" then Except.error (IngestError.required rowNum ObField.description)
  else if obligationType = "" then Except.error (IngestError.required rowNum ObField.type)
  else if monthlyPayment = "" then Except.error (IngestError.required rowNum ObField.monthlyPayment)
  else
    let rbParsed : Except IngestError Dec :=
      if remainingBalance = "" then Except.ok ⟨0, 0⟩
      else
        match parseDecimal remainingBalance with
        | none => Except.error (IngestError.parseFail rowNum ObField.remainingBalance)
        | some v => Except.ok v
    let irParsed : Except IngestError Dec :=
      if interestRate = "" then Except.ok ⟨0, 0⟩
      else
        match parseDecimal interestRate with
        | none => Except.error (IngestError.parseFail rowNum ObField.interestRate)
        | some v => Except.ok (Dec.round2 (if Dec.ble v ⟨1, 0⟩ then Dec.mul100 v else v))
    match rbParsed with
    | Except.error e => Except.error e
    | Except.ok rbF =>
      match irParsed with
      | Except.error e => Except.error e
      | Except.ok irF =>
        match parseDecimal monthlyPayment with
        | none => Except.error (IngestError.parseFail rowNum ObField.monthlyPayment)
        | some mpF =>
          let base : Obligation := ⟨description, obligationType, ⟨0, 0⟩, ⟨0, 0⟩, mpF⟩
          let withRb : Obligation :=
            if rbF.num ≠ 0 then { base with remainingBalance := rbF } else base
          let withIr : Obligation :=
            if irF.num ≠ 0 then { withRb with interestRate := irF } else withRb
          Except.ok withIr

/-- One non-blank data row: the Go code reads `row.Cells[0]` … `row.Cells[4]`
unconditionally, so a row with fewer than five cells raises an
index-out-of-range panic (modelled by `IngestError.outOfRange`). -/
def parseRow (rowNum : Nat) (row : Row) : Except IngestError Obligation :=
  if 5 ≤ row.length then
    mkObligation rowNum (row.getD 0 "") (row.getD 1 "") (row.getD 2 "") (row.getD 3 "") (row.getD 4 "")
  else Except.error (IngestError.outOfRange rowNum row.length)

/-- The `getObligations` data loop over `sheet.Rows[1:]`: `i` is the index
within the data rows, and the reported spreadsheet row number is `i + 2`
(header row is row 1).  Fully blank rows are skipped but still consume an
index. -/
def processRows : Nat → List Row → Except IngestError (List Obligation)
  | _, [] => Except.ok []
  | i, row :: rest =>
    if isRowEmpty row then processRows (i + 1) rest
    else
      match parseRow (i + 2) row with
      | Except.error e => Except.error e
      | Except.ok o =>
        match processRows (i + 1) rest with
        | Except.error e => Except.error e
        | Except.ok os => Except.ok (o :: os)

/-- Function `getObligations` on the sheet rows (header first): fail when the sheet
has fewer than two rows, otherwise process the data rows in order. -/
def getObligations (rows : List Row) : Except IngestError (List Obligation) :=
  if rows.length < 2 then Except.error IngestError.noData
  else processRows 0 (rows.drop 1)

/-- Hexadecimal digit character (lower case), for `\u00XX` escapes. -/
def hexDigit (n : Nat) : Char := if n < 10 then digitChar n else Char.ofNat (87 + n)

/-- Go `encoding/json` string-character escaping: quote, backslash, the
HTML-sensitive characters and control characters are escaped; everything
else is emitted verbatim.  (The `U+2028`/`U+2029` escapes are not
modelled.) -/
def jsonEscapeChar (c : Char) : List Char :=
  if c = '"' then ['\\', '"']
  else if c = '\\' then ['\\', '\\']
  else if c = '\n' then ['\\', 'n']
  else if c = '\r' then ['\\', 'r']
  else if c = '\t' then ['\\', 't']
  else if c = '<' then '\\' :: 'u' :: '0' :: '0' :: '3' :: ['c']
  else if c = '>' then '\\' :: 'u' :: '0' :: '0' :: '3' :: ['e']
  else if c = '&' then '\\' :: 'u' :: '0' :: '0' :: '2' :: ['6']
  else if c.toNat < 32 then '\\' :: 'u' :: '0' :: '0' :: hexDigit (c.toNat / 16) :: [hexDigit (c.toNat % 16)]
  else [c]

/-- A JSON string literal, as produced by `encoding/json`. -/
def jsonString (s : String) : String := "\"" ++ ⟨(s.data.map jsonEscapeChar).flatten⟩ ++ "\""

/-- The key/value entries `json.Marshal` emits for an `Obligation`, in
struct order: the two `omitempty` fields are omitted exactly when they hold
the zero value. -/
def obligationEntries (o : Obligation) : List (String × String) :=
  [("description", jsonString o.description), ("type", jsonString o.type)]
    ++ (if o.remainingBalance.num ≠ 0 then [("remaining_balance", Dec.fmt o.remainingBalance)] else [])
    ++ (if o.interestRate.num ≠ 0 then [("interest_rate", Dec.fmt o.interestRate)] else [])
    ++ [("monthly_payment", Dec.fmt o.monthlyPayment)]

/-- The keys present in the serialized form of an obligation. -/
def entryKeys (o : Obligation) : List String := (obligationEntries o).map Prod.fst

/-- Comma-separated concatenation. -/
def joinComma : List String → String
  | [] => ""
  | [s] => s
  | s :: rest => s ++ "," ++ joinComma rest

/-- Serialization `json.Marshal` of one obligation: a JSON object with the entries of
`obligationEntries`. -/
def serializeObligation (o : Obligation) : String :=
  "\x7b" ++ joinComma ((obligationEntries o).map (fun e => "\"" ++ e.1 ++ "\":" ++ e.2)) ++ "\x7d"

/-- Function `formatObligations`: the marshalled records concatenated back to back
with no separator. -/
def formatObligations (obs : List Obligation) : String :=
  String.join (obs.map serializeObligation)

/-- The prompt template of `promptOllama` up to the interpolated income
(`%.2f`), ending with the dollar sign that precedes it. -/
def promptPersona : String :=
  "You are a cost-efficient financial planner.\nMy monthly income is $"

/-- The prompt template between the income and the obligations payload. -/
def promptAfterIncome : String := ".\nMy obligations are "

/-- The prompt template between the obligations payload and the goal. -/
def promptAfterObligations : String :=
  ".\nIf no comperable leisure budget exists and at least 5 percent (x) of income remains, create a $x leisure expense.\n"

/-- The fixed guideline clauses that close the prompt, directly after the
interpolated goal. -/
def promptGuidelines : String :=
  ".\nIf no money is leftover, let the user know and assume this plan is for when additional funds are available.\nProvide concise, actionable short-term and long-term steps with exact dollar amounts.\nBriefly explain your reasoning for each step.\nOnly suggest extra payments for loans and credit cards.\nDo not consider user preferences or alternative scenarios; only provide the most efficient solution.\nDo not enumerate or compare multiple strategies.\nDo not respond with formulas or calculations for the user to perform.\nDo not list monthly expenses or bills in your response; they are for context only.\nIgnore the concepts of principal contributions as-well as fixed vs variable interest rate types.\nEnsure no loan or credit card payment is counted or allocated more than once in any transactions or calculations."

/-- The `fmt.Sprintf` template of `promptOllama`: persona framing, income
formatted with `%.2f`, obligations payload, goal, guideline clauses. -/
def buildPrompt (income : Dec) (formattedObligations goal : String) : String :=
  promptPersona ++ Dec.fmtF2 income ++ promptAfterIncome ++ formattedObligations
    ++ promptAfterObligations ++ goal ++ promptGuidelines

/-- One event of the streamed `client.Generate` exchange: a delivered text
chunk, or a mid-stream backend error. -/
inductive GenEvent where
  | chunk (text : String)
  | failure (msg : String)
deriving DecidableEq

/-- The response-callback loop: each chunk is appended to the accumulator
in arrival order; a backend failure aborts the exchange with an error (the
accumulated text is discarded by `promptOllama`, which returns an empty
builder on error). -/
def collectResponse : List GenEvent → String → Except String String
  | [], acc => Except.ok acc
  | GenEvent.chunk s :: rest, acc => collectResponse rest (acc ++ s)
  | GenEvent.failure m :: _, _ => Except.error m

/-- Function `promptOllama` after the connection set-up (heartbeat, model listing
and pulling are out-of-scope collaborator mechanics): build the prompt,
run the streamed exchange, and return the accumulated reply or a
generation error. -/
def promptOllama (income : Dec) (formattedObligations goal : String) (events : List GenEvent) :
    Except String String :=
  let _prompt := buildPrompt income formattedObligations goal
  match collectResponse events "" with
  | Except.error m => Except.error ("error generating AI response: " ++ m)
  | Except.ok resp => Except.ok resp

/-- The whitespace class `\s` of Go regular expressions (RE2):
`[\t\n\f\r ]`. -/
def reIsSpace (c : Char) : Bool :=
  c = ' ' || c = '\t' || c = '\n' || c = '\x0c' || c = '\r'

/-- Split a character list at the first occurrence of `pat` (non-empty):
`some (pre, post)` with the input equal to `pre ++ pat ++ post` and no
earlier occurrence, or `none` when `pat` does not occur. -/
def splitFirstAux (pat : List Char) : List Char → List Char → Option (List Char × List Char)
  | [], _ => none
  | c :: rest, acc =>
    if pat.isPrefixOf (c :: rest) then some (acc.reverse, (c :: rest).drop pat.length)
    else splitFirstAux pat rest (c :: acc)

/-- Split at the first occurrence of a non-empty pattern. -/
def splitFirst (pat s : List Char) : Option (List Char × List Char) := splitFirstAux pat s []

/-- Drop leading RE2 whitespace. -/
def dropLeadWs (l : List Char) : List Char := l.dropWhile reIsSpace

/-- Drop trailing RE2 whitespace. -/
def dropTrailWs (l : List Char) : List Char := (l.reverse.dropWhile reIsSpace).reverse

/-- The opening reasoning sentinel. -/
def openTag : List Char := "<think>".data

/-- The closing reasoning sentinel. -/
def closeTag : List Char := "</think>".data

/-- Global replacement of the regex ``(?s)\s*<think>.*?</think>\s*`` with
the empty string: repeatedly locate the leftmost `<think>` (the leading
greedy `\s*` extends the match to the whitespace run immediately before
it), the first `</think>` after it (lazy `.*?`), consume the whitespace
run after it (trailing greedy `\s*`), and continue after the match.
`fuel` bounds the iteration count; `length + 1` always suffices since each
removed segment is non-empty. -/
def stripThinkAux : Nat → List Char → List Char
  | 0, s => s
  | fuel + 1, s =>
    match splitFirst openTag s with
    | none => s
    | some (pre, rest) =>
      match splitFirst closeTag rest with
      | none => s
      | some (_, post) => dropTrailWs pre ++ stripThinkAux fuel (dropLeadWs post)

/-- The `excludeThink` branch of `writeOutFile`: remove every
`<think>…</think>` segment together with the adjacent whitespace. -/
def stripThink (s : String) : String := ⟨stripThinkAux (s.data.length + 1) s.data⟩

/-- Go `strings.ReplaceAll` (non-empty pattern): replace non-overlapping
occurrences left to right. -/
def replaceAllAux (pat rep : List Char) : Nat → List Char → List Char
  | 0, s => s
  | fuel + 1, s =>
    match splitFirst pat s with
    | none => s
    | some (pre, post) => pre ++ rep ++ replaceAllAux pat rep fuel post

/-- Go `strings.ReplaceAll` on strings. -/
def replaceAllStr (s pat rep : String) : String :=
  ⟨replaceAllAux pat.data rep.data (s.data.length + 1) s.data⟩

/-- The human-readable delimiter substituted for `<think>` when reasoning
is kept. -/
def startDelim : String := "---\n### Started thinking"

/-- The human-readable delimiter substituted for `</think>` when reasoning
is kept. -/
def endDelim : String := "### Ended thinking\n---"

/-- The reply post-processing of `writeOutFile`: strip the reasoning
segments when `excludeThink` is set, otherwise replace each sentinel with
its human-readable delimiter. -/
def processOutput (excludeThink : Bool) (output : String) : String :=
  if excludeThink then stripThink output
  else replaceAllStr (replaceAllStr output "<think>" startDelim) "</think>" endDelim

/-- The components of Go `time.Now()` used by the run (the filename embeds
only month through second). -/
structure GoTime where
  year : Nat
  month : Nat
  day : Nat
  hour : Nat
  minute : Nat
  second : Nat
  nanosecond : Nat
deriving DecidableEq

/-- The artifact filename
`fmt.Sprintf("Obligation Advice %d-%d %dh %dm %ds.md", …)` built from
month, day, hour, minute and second of the current time. -/
def outFileName (t : GoTime) : String :=
  "Obligation Advice " ++ natRepr t.month ++ "-" ++ natRepr t.day ++ " " ++ natRepr t.hour
    ++ "h " ++ natRepr t.minute ++ "m " ++ natRepr t.second ++ "s.md"

/-- Does the path start with a slash (`filepath.IsAbs` on Unix)? -/
def isAbsPath (s : String) : Bool := s.data.head? == some '/'

/-- Split a path into its slash-separated segments. -/
def splitSegsAux : List Char → List Char → List String
  | [], acc => [⟨acc.reverse⟩]
  | '/' :: rest, acc => ⟨acc.reverse⟩ :: splitSegsAux rest []
  | c :: rest, acc => splitSegsAux rest (c :: acc)

/-- The segment loop of `filepath.Clean`: drop empty and `.` segments and
resolve `..` against the segment stack. -/
def cleanSegsAux (rooted : Bool) : List String → List String → List String
  | [], stack => stack.reverse
  | seg :: rest, stack =>
    if seg = "" || seg = "." then cleanSegsAux rooted rest stack
    else if seg = ".." then
      match stack with
      | top :: stackRest =>
        if top = ".." then cleanSegsAux rooted rest (".." :: top :: stackRest)
        else cleanSegsAux rooted rest stackRest
      | [] => if rooted then cleanSegsAux rooted rest [] else cleanSegsAux rooted rest [".."]
    else cleanSegsAux rooted rest (seg :: stack)

/-- Join segments with slashes. -/
def joinSlash : List String → String
  | [] => ""
  | [s] => s
  | s :: rest => s ++ "/" ++ joinSlash rest

/-- Go `filepath.Clean` for Unix paths. -/
def goPathClean (path : String) : String :=
  if path = "" then "."
  else
    let rooted := isAbsPath path
    let body := joinSlash (cleanSegsAux rooted (splitSegsAux path.data []) [])
    if rooted then "/" ++ body
    else if body = "" then "." else body

/-- Go `filepath.Join` on two elements: concatenate the non-empty elements
with a slash and clean the result. -/
def goJoin (a b : String) : String :=
  if a = "" && b = "" then ""
  else if a = "" then goPathClean b
  else if b = "" then goPathClean a
  else goPathClean (a ++ "/" ++ b)

/-- The artifact produced by `writeOutFile`: the path handed to
`os.Create` and the full text written to it. -/
structure Artifact where
  path : String
  content : String
deriving DecidableEq

/-- Function `writeOutFile`: build the timestamped filename, join it to the output
directory, write the goal header followed by the processed reply, and
report the artifact path — prefixed with the working directory only when
`outDir` is exactly `"./"`.  Returns the artifact and the reported path. -/
def writeOutFile (cwd : String) (now : GoTime) (outDir goal : String) (excludeThink : Bool)
    (response : String) : Artifact × String :=
  let name := outFileName now
  let outFilePath := goJoin outDir name
  let content := "**Goal**: `" ++ goal ++ "`\n\n" ++ processOutput excludeThink response
  let reported := if outDir = "./" then goJoin cwd outFilePath else outFilePath
  (⟨outFilePath, content⟩, reported)

/-- The `main` pipeline after flag handling: ingest, serialize, run the
generation exchange, then write the artifact.  Any error aborts the run
(`checkErr` exits) before `writeOutFile` is reached. -/
def runPipeline (cwd : String) (now : GoTime) (dataRows : List Row) (income : Dec)
    (goal : String) (excludeThink : Bool) (outDir : String) (events : List GenEvent) :
    Except String (Artifact × String) :=
  match getObligations dataRows with
  | Except.error e => Except.error (errMsg e)
  | Except.ok obligations =>
    let formattedObligations := formatObligations obligations
    match promptOllama income formattedObligations goal events with
    | Except.error m => Except.error m
    | Except.ok resp => Except.ok (writeOutFile cwd now outDir goal excludeThink resp)

theorem Dec.canon_eq_zero : ∀ (k : Nat) (m : Int), (Dec.canon m k).num = 0 → Dec.canon m k = ⟨0, 0⟩
  | 0, m, h => by
    have hm0 : m = 0 := h
    simp only [Dec.canon, hm0]
  | k + 1, m, h => by
    simp only [Dec.canon] at h ⊢
    split at h
    case isTrue hm =>
      rw [if_pos hm]
      exact Dec.canon_eq_zero k (m / 10) h
    case isFalse hm =>
      have hm0 : m = 0 := h
      rw [hm0] at hm
      exact absurd (by decide) hm

theorem Dec.round2_eq_zero (d : Dec) (h : (Dec.round2 d).num = 0) : Dec.round2 d = ⟨0, 0⟩ := by
  unfold Dec.round2 at h ⊢
  split at h
  case isTrue hc => rw [if_pos hc]; exact Dec.canon_eq_zero _ _ h
  case isFalse hc => rw [if_neg hc]; exact Dec.canon_eq_zero _ _ h

/-- C1.  For every obligation row whose `interestRate` cell is non-blank
and parses to a decimal `r`, the obligation produced by the ingestion loop
carries the normalized rate: `r` scaled by 100 when `r ≤ 1.0`, unchanged
when `r > 1.0`, then rounded to two decimal places (ties away from zero,
as Go `math.Round`). -/
theorem c1_interest_rate_normalization
    (rowNum : Nat) (c0 c1v c2 c3 c4 : String) (o : Obligation) (r : Dec)
    (ho : mkObligation rowNum c0 c1v c2 c3 c4 = Except.ok o)
    (hne : trimSpace c3 ≠ "")
    (hr : parseDecimal (trimSpace c3) = some r) :
    o.interestRate = Dec.round2 (if Dec.ble r ⟨1, 0⟩ then Dec.mul100 r else r) := by
  simp only [mkObligation, if_neg hne, hr] at ho
  by_cases hd : trimSpace c0 = "" <;> simp only [hd, reduceIte] at ho
  · exact absurd ho (by simp)
  by_cases ht : trimSpace c1v = "" <;> simp only [ht, reduceIte] at ho
  · exact absurd ho (by simp)
  by_cases hm : trimSpace c4 = "" <;> simp only [hm, reduceIte] at ho
  · exact absurd ho (by simp)
  by_cases hrb : trimSpace c2 = "" <;> simp only [hrb, reduceIte] at ho
  · split at ho
    · exact absurd ho (by simp)
    · injection ho with ho
      subst ho
      by_cases hir : (Dec.round2 (if Dec.ble r ⟨1, 0⟩ then Dec.mul100 r else r)).num ≠ 0
      · rw [if_pos hir]
      · rw [if_neg hir]
        push_neg at hir
        have h0 := Dec.round2_eq_zero _ hir
        simp [h0]
  · split at ho
    · exact absurd ho (by simp)
    rename_i rbF hrbF
    split at ho
    · exact absurd ho (by simp)
    injection ho with ho
    subst ho
    by_cases hir : (Dec.round2 (if Dec.ble r ⟨1, 0⟩ then Dec.mul100 r else r)).num ≠ 0
    · rw [if_pos hir]
    · rw [if_neg hir]
      push_neg at hir
      have h0 := Dec.round2_eq_zero _ hir
      split <;> simp [h0]

theorem c1_interest_rate_normalization_witness :
    mkObligation 2 "Card A" "loan" "" "0.055" "100" =
      Except.ok ⟨"Card A", "loan", ⟨0, 0⟩, ⟨55, 1⟩, ⟨100, 0⟩⟩
    ∧ (⟨"Card A", "loan", ⟨0, 0⟩, ⟨55, 1⟩, ⟨100, 0⟩⟩ : Obligation).interestRate
        = Dec.round2 (if Dec.ble ⟨55, 3⟩ ⟨1, 0⟩ then Dec.mul100 ⟨55, 3⟩ else ⟨55, 3⟩)
    ∧ Dec.round2 (if Dec.ble ⟨55, 3⟩ ⟨1, 0⟩ then Dec.mul100 ⟨55, 3⟩ else ⟨55, 3⟩) = ⟨55, 1⟩
    ∧ Dec.round2 (if Dec.ble ⟨599, 4⟩ ⟨1, 0⟩ then Dec.mul100 ⟨599, 4⟩ else ⟨599, 4⟩) = ⟨599, 2⟩
    ∧ Dec.round2 (if Dec.ble ⟨725, 2⟩ ⟨1, 0⟩ then Dec.mul100 ⟨725, 2⟩ else ⟨725, 2⟩) = ⟨725, 2⟩ :=
  ⟨by decide,
   c1_interest_rate_normalization 2 "Card A" "loan" "" "0.055" "100"
     ⟨"Card A", "loan", ⟨0, 0⟩, ⟨55, 1⟩, ⟨100, 0⟩⟩ ⟨55, 3⟩ (by decide) (by decide) (by decide),
   by decide, by decide, by decide⟩

theorem mkObligation_ok_inv (rowNum : Nat) (c0v c1v c2v c3v c4v : String) (o : Obligation)
    (ho : mkObligation rowNum c0v c1v c2v c3v c4v = Except.ok o) :
    ∃ rbF irF mpF : Dec,
      parseDecimal (trimSpace c4v) = some mpF
      ∧ (trimSpace c2v = "" ∧ rbF = ⟨0, 0⟩ ∨ parseDecimal (trimSpace c2v) = some rbF)
      ∧ (trimSpace c3v = "" ∧ irF = ⟨0, 0⟩
          ∨ ∃ v : Dec, parseDecimal (trimSpace c3v) = some v
              ∧ irF = Dec.round2 (if Dec.ble v ⟨1, 0⟩ then Dec.mul100 v else v))
      ∧ o = ⟨trimSpace c0v, trimSpace c1v,
             if rbF.num ≠ 0 then rbF else ⟨0, 0⟩,
             if irF.num ≠ 0 then irF else ⟨0, 0⟩, mpF⟩ := by
  simp only [mkObligation] at ho
  by_cases hd : trimSpace c0v = "" <;> simp only [hd, reduceIte] at ho
  · exact absurd ho (by simp)
  by_cases ht : trimSpace c1v = "" <;> simp only [ht, reduceIte] at ho
  · exact absurd ho (by simp)
  by_cases hm : trimSpace c4v = "" <;> simp only [hm, reduceIte] at ho
  · exact absurd ho (by simp)
  split at ho
  · exact absurd ho (by simp)
  rename_i rbF hrbF
  split at ho
  · exact absurd ho (by simp)
  rename_i irF hirF
  split at ho
  · exact absurd ho (by simp)
  rename_i mpF hmpF
  injection ho with ho
  refine ⟨rbF, irF, mpF, hmpF, ?_, ?_, ?_⟩
  · by_cases hrb : trimSpace c2v = ""
    · rw [if_pos hrb] at hrbF
      injection hrbF with hrbF
      exact Or.inl ⟨hrb, hrbF.symm⟩
    · rw [if_neg hrb] at hrbF
      split at hrbF
      · exact absurd hrbF (by simp)
      · injection hrbF with hrbF
        subst hrbF
        exact Or.inr (by assumption)
  · by_cases hir : trimSpace c3v = ""
    · rw [if_pos hir] at hirF
      injection hirF with hirF
      exact Or.inl ⟨hir, hirF.symm⟩
    · rw [if_neg hir] at hirF
      split at hirF
      · exact absurd hirF (by simp)
      · rename_i v hv
        injection hirF with hirF
        exact Or.inr ⟨v, hv, hirF.symm⟩
  · subst ho
    by_cases h1 : rbF.num ≠ 0 <;> by_cases h2 : irF.num ≠ 0
    · rw [if_pos h1, if_pos h2, if_pos h1, if_pos h2]
    · rw [if_pos h1, if_neg h2, if_pos h1, if_neg h2]
    · rw [if_neg h1, if_pos h2, if_neg h1, if_pos h2]
    · rw [if_neg h1, if_neg h2, if_neg h1, if_neg h2]

theorem mem_entryKeys_rb (o : Obligation) :
    "remaining_balance" ∈ entryKeys o ↔ o.remainingBalance.num ≠ 0 := by
  unfold entryKeys obligationEntries
  by_cases h1 : o.remainingBalance.num ≠ 0 <;> by_cases h2 : o.interestRate.num ≠ 0 <;>
    simp [h1, h2]

theorem mem_entryKeys_ir (o : Obligation) :
    "interest_rate" ∈ entryKeys o ↔ o.interestRate.num ≠ 0 := by
  unfold entryKeys obligationEntries
  by_cases h1 : o.remainingBalance.num ≠ 0 <;> by_cases h2 : o.interestRate.num ≠ 0 <;>
    simp [h1, h2]

/-- C5.  An optional numeric field left blank in the source row yields
the zero value in the record (the Go absence representation) and no entry
for that field in the serialized key-value form: no literal zero is
emitted for an absent optional field. -/
theorem c5_blank_optional_fields_omitted
    (rowNum : Nat) (c0v c1v c2v c3v c4v : String) (o : Obligation)
    (ho : mkObligation rowNum c0v c1v c2v c3v c4v = Except.ok o) :
    (trimSpace c2v = "" → o.remainingBalance = ⟨0, 0⟩ ∧ "remaining_balance" ∉ entryKeys o)
    ∧ (trimSpace c3v = "" → o.interestRate = ⟨0, 0⟩ ∧ "interest_rate" ∉ entryKeys o) := by
  obtain ⟨rbF, irF, mpF, hmp, hrb, hir, rfl⟩ := mkObligation_ok_inv _ _ _ _ _ _ _ ho
  constructor
  · intro hblank
    have hrbF : rbF = ⟨0, 0⟩ := by
      rcases hrb with ⟨_, h⟩ | h
      · exact h
      · rw [hblank] at h
        exact absurd h (by simp [parseDecimal, parseDecimalCore])
    subst hrbF
    refine ⟨by simp, ?_⟩
    rw [mem_entryKeys_rb]
    simp
  · intro hblank
    have hirF : irF = ⟨0, 0⟩ := by
      rcases hir with ⟨_, h⟩ | ⟨v, hv, _⟩
      · exact h
      · rw [hblank] at hv
        exact absurd hv (by simp [parseDecimal, parseDecimalCore])
    subst hirF
    refine ⟨by simp, ?_⟩
    rw [mem_entryKeys_ir]
    simp

theorem c5_blank_optional_fields_omitted_witness :
    mkObligation 2 "Rent" "bill" "" "" "1200" =
      Except.ok ⟨"Rent", "bill", ⟨0, 0⟩, ⟨0, 0⟩, ⟨1200, 0⟩⟩
    ∧ (⟨"Rent", "bill", ⟨0, 0⟩, ⟨0, 0⟩, ⟨1200, 0⟩⟩ : Obligation).remainingBalance = ⟨0, 0⟩
    ∧ "remaining_balance" ∉ entryKeys ⟨"Rent", "bill", ⟨0, 0⟩, ⟨0, 0⟩, ⟨1200, 0⟩⟩
    ∧ (⟨"Rent", "bill", ⟨0, 0⟩, ⟨0, 0⟩, ⟨1200, 0⟩⟩ : Obligation).interestRate = ⟨0, 0⟩
    ∧ "interest_rate" ∉ entryKeys ⟨"Rent", "bill", ⟨0, 0⟩, ⟨0, 0⟩, ⟨1200, 0⟩⟩
    ∧ serializeObligation ⟨"Rent", "bill", ⟨0, 0⟩, ⟨0, 0⟩, ⟨1200, 0⟩⟩ =
        "\x7b\"description\":\"Rent\",\"type\":\"bill\",\"monthly_payment\":1200\x7d" := by
  have h := c5_blank_optional_fields_omitted 2 "Rent" "bill" "" "" "1200"
    ⟨"Rent", "bill", ⟨0, 0⟩, ⟨0, 0⟩, ⟨1200, 0⟩⟩ (by decide)
  exact ⟨by decide, (h.1 (by decide)).1, (h.1 (by decide)).2, (h.2 (by decide)).1,
    (h.2 (by decide)).2, by decide⟩

/-- C9.  An optional numeric cell holding an explicit zero produces
exactly the same record and serialized output as a blank cell: the
ingestor drops any optional field whose parsed value is zero, so
explicitly-zero and absent optional values are indistinguishable
downstream. -/
theorem c9_zero_equals_blank (rowNum : Nat) (c0v c1v rb ir mp : String) :
    mkObligation rowNum c0v c1v "0" ir mp = mkObligation rowNum c0v c1v "" ir mp
    ∧ mkObligation rowNum c0v c1v rb "0" mp = mkObligation rowNum c0v c1v rb "" mp
    ∧ (mkObligation rowNum c0v c1v "0" ir mp).map serializeObligation
        = (mkObligation rowNum c0v c1v "" ir mp).map serializeObligation
    ∧ (∀ o : Obligation, mkObligation rowNum c0v c1v rb ir mp = Except.ok o →
        parseDecimal (trimSpace rb) = some ⟨0, 0⟩ →
        o.remainingBalance = ⟨0, 0⟩ ∧ "remaining_balance" ∉ entryKeys o)
    ∧ (∀ o : Obligation, mkObligation rowNum c0v c1v rb ir mp = Except.ok o →
        parseDecimal (trimSpace ir) = some ⟨0, 0⟩ →
        o.interestRate = ⟨0, 0⟩ ∧ "interest_rate" ∉ entryKeys o) := by
  refine ⟨rfl, rfl, rfl, ?_, ?_⟩
  · intro o ho h0
    obtain ⟨rbF, irF, mpF, hmp, hrb, hir, rfl⟩ := mkObligation_ok_inv _ _ _ _ _ _ _ ho
    have hrbF : rbF = ⟨0, 0⟩ := by
      rcases hrb with ⟨_, h⟩ | h
      · exact h
      · rw [h0] at h
        injection h with h
        exact h.symm
    subst hrbF
    refine ⟨by simp, ?_⟩
    rw [mem_entryKeys_rb]
    simp
  · intro o ho h0
    obtain ⟨rbF, irF, mpF, hmp, hrb, hir, rfl⟩ := mkObligation_ok_inv _ _ _ _ _ _ _ ho
    have hirF : irF = ⟨0, 0⟩ := by
      rcases hir with ⟨_, h⟩ | ⟨v, hv, hnorm⟩
      · exact h
      · rw [h0] at hv
        injection hv with hv
        rw [← hv] at hnorm
        simpa using hnorm
    subst hirF
    refine ⟨by simp, ?_⟩
    rw [mem_entryKeys_ir]
    simp

theorem c9_zero_equals_blank_witness :
    mkObligation 2 "Card A" "credit-card" "0" "" "150.00" =
      mkObligation 2 "Card A" "credit-card" "" "" "150.00"
    ∧ mkObligation 2 "Card A" "credit-card" "" "0" "150.00" =
        mkObligation 2 "Card A" "credit-card" "" "" "150.00"
    ∧ mkObligation 2 "Card A" "credit-card" "" "" "150.00" =
        Except.ok ⟨"Card A", "credit-card", ⟨0, 0⟩, ⟨0, 0⟩, ⟨150, 0⟩⟩ := by
  have h := c9_zero_equals_blank 2 "Card A" "credit-card" "" "0" "150.00"
  exact ⟨h.1, (c9_zero_equals_blank 2 "Card A" "credit-card" "" "" "150.00").2.1, by decide⟩

theorem processRows_append (xs ys : List Row) : ∀ i : Nat,
    processRows i (xs ++ ys) =
      match processRows i xs with
      | Except.error e => Except.error e
      | Except.ok os =>
        match processRows (i + xs.length) ys with
        | Except.error e => Except.error e
        | Except.ok os2 => Except.ok (os ++ os2) := by
  induction xs with
  | nil =>
    intro i
    simp only [List.nil_append, processRows, List.length_nil, Nat.add_zero]
    cases h : processRows i ys <;> simp
  | cons r xs ih =>
    intro i
    simp only [List.cons_append, processRows, List.length_cons]
    have harith : i + 1 + xs.length = i + (xs.length + 1) := by omega
    cases hr : isRowEmpty r
    · simp only [hr, Bool.false_eq_true, reduceIte, List.append_eq]
      rw [ih (i + 1), harith]
      cases hp : parseRow (i + 2) r with
      | error e => rfl
      | ok o =>
        cases h1 : processRows (i + 1) xs with
        | error e => rfl
        | ok os =>
          cases h2 : processRows (i + (xs.length + 1)) ys with
          | error e => rfl
          | ok os2 => simp
    · simp only [hr, reduceIte, List.append_eq]
      rw [ih (i + 1), harith]

theorem getObligations_error_at (header : Row) (pre : List Row) (r : Row) (suf : List Row)
    (os : List Obligation) (hpre : processRows 0 pre = Except.ok os)
    (hnb : isRowEmpty r = false) (e : IngestError)
    (hr : parseRow (pre.length + 2) r = Except.error e) :
    getObligations (header :: (pre ++ r :: suf)) = Except.error e := by
  unfold getObligations
  rw [if_neg ?hlen]
  case hlen =>
    simp only [List.length_cons, List.length_append]
    omega
  simp only [List.drop_succ_cons, List.drop_zero]
  rw [processRows_append pre (r :: suf) 0, hpre]
  simp only [Nat.zero_add, processRows, hnb, Bool.false_eq_true, reduceIte]
  rw [hr]

theorem parseRow_required_description (n : Nat) (row : Row) (hlen : 5 ≤ row.length)
    (h0 : trimSpace (row.getD 0 "") = "") :
    parseRow n row = Except.error (IngestError.required n ObField.description) := by
  unfold parseRow
  rw [if_pos hlen]
  unfold mkObligation
  rw [if_pos h0]

theorem parseRow_required_type (n : Nat) (row : Row) (hlen : 5 ≤ row.length)
    (h0 : trimSpace (row.getD 0 "") ≠ "") (h1 : trimSpace (row.getD 1 "") = "") :
    parseRow n row = Except.error (IngestError.required n ObField.type) := by
  unfold parseRow
  rw [if_pos hlen]
  unfold mkObligation
  rw [if_neg h0, if_pos h1]

theorem parseRow_required_monthlyPayment (n : Nat) (row : Row) (hlen : 5 ≤ row.length)
    (h0 : trimSpace (row.getD 0 "") ≠ "") (h1 : trimSpace (row.getD 1 "") ≠ "")
    (h4 : trimSpace (row.getD 4 "") = "") :
    parseRow n row = Except.error (IngestError.required n ObField.monthlyPayment) := by
  unfold parseRow
  rw [if_pos hlen]
  unfold mkObligation
  rw [if_neg h0, if_neg h1, if_pos h4]

/-- C2.  A non-blank data row whose trimmed `description`, `type` or
`monthlyPayment` cell is empty makes ingestion fail with a validation
error naming that field and the 1-based spreadsheet row number (header =
row 1, first data row = row 2); the row number counts physical rows, so
fully blank rows inside `pre` (which `processRows` skips) still advance
the numbering and do not shift the row attributed to a later error. -/
theorem c2_required_field_errors
    (header : Row) (pre : List Row) (r : Row) (suf : List Row) (os : List Obligation)
    (hpre : processRows 0 pre = Except.ok os)
    (hlen : 5 ≤ r.length) (hnb : isRowEmpty r = false) :
    (trimSpace (r.getD 0 "") = "" →
      getObligations (header :: (pre ++ r :: suf)) =
        Except.error (IngestError.required (pre.length + 2) ObField.description))
    ∧ (trimSpace (r.getD 0 "") ≠ "" → trimSpace (r.getD 1 "") = "" →
        getObligations (header :: (pre ++ r :: suf)) =
          Except.error (IngestError.required (pre.length + 2) ObField.type))
    ∧ (trimSpace (r.getD 0 "") ≠ "" → trimSpace (r.getD 1 "") ≠ "" →
        trimSpace (r.getD 4 "") = "" →
        getObligations (header :: (pre ++ r :: suf)) =
          Except.error (IngestError.required (pre.length + 2) ObField.monthlyPayment)) := by
  refine ⟨fun h0 => ?_, fun h0 h1 => ?_, fun h0 h1 h4 => ?_⟩
  · exact getObligations_error_at header pre r suf os hpre hnb _
      (parseRow_required_description _ r hlen h0)
  · exact getObligations_error_at header pre r suf os hpre hnb _
      (parseRow_required_type _ r hlen h0 h1)
  · exact getObligations_error_at header pre r suf os hpre hnb _
      (parseRow_required_monthlyPayment _ r hlen h0 h1 h4)

theorem c2_required_field_errors_witness :
    getObligations
        [["Description", "Type", "Remaining Balance", "Interest Rate", "Monthly Payment"],
         ["Rent", "bill", "", "", "1200"],
         ["", "", "", "", ""],
         ["", "loan", "", "", "50"],
         ["Car", "loan", "", "", "300"]] =
      Except.error (IngestError.required 4 ObField.description)
    ∧ getObligations
        [["Description", "Type", "Remaining Balance", "Interest Rate", "Monthly Payment"],
         ["Rent", "bill", "", "", "1200"],
         ["", "", "", "", ""],
         ["Gym", "", "", "", "50"]] =
      Except.error (IngestError.required 4 ObField.type)
    ∧ getObligations
        [["Description", "Type", "Remaining Balance", "Interest Rate", "Monthly Payment"],
         ["Gym", "bill", "", "", "  "]] =
      Except.error (IngestError.required 2 ObField.monthlyPayment) := by
  refine ⟨?_, ?_, ?_⟩
  · exact (c2_required_field_errors
      ["Description", "Type", "Remaining Balance", "Interest Rate", "Monthly Payment"]
      [["Rent", "bill", "", "", "1200"], ["", "", "", "", ""]]
      ["", "loan", "", "", "50"] [["Car", "loan", "", "", "300"]]
      [⟨"Rent", "bill", ⟨0, 0⟩, ⟨0, 0⟩, ⟨1200, 0⟩⟩]
      (by decide) (by decide) (by decide)).1 (by decide)
  · exact ((c2_required_field_errors
      ["Description", "Type", "Remaining Balance", "Interest Rate", "Monthly Payment"]
      [["Rent", "bill", "", "", "1200"], ["", "", "", "", ""]]
      ["Gym", "", "", "", "50"] []
      [⟨"Rent", "bill", ⟨0, 0⟩, ⟨0, 0⟩, ⟨1200, 0⟩⟩]
      (by decide) (by decide) (by decide)).2).1 (by decide) (by decide)
  · exact ((c2_required_field_errors
      ["Description", "Type", "Remaining Balance", "Interest Rate", "Monthly Payment"]
      [] ["Gym", "bill", "", "", "  "] [] []
      (by decide) (by decide) (by decide)).2).2 (by decide) (by decide) (by decide)

theorem mkObligation_not_outOfRange (rowNum : Nat) (c0v c1v c2v c3v c4v : String) (n k : Nat) :
    mkObligation rowNum c0v c1v c2v c3v c4v ≠ Except.error (IngestError.outOfRange n k) := by
  intro h
  simp only [mkObligation] at h
  split at h
  · simp at h
  split at h
  · simp at h
  split at h
  · simp at h
  split at h
  · rename_i e heq
    injection h with h
    subst h
    split at heq
    · simp at heq
    · split at heq <;> simp at heq
  rename_i rbF hrbF
  split at h
  · rename_i e heq
    injection h with h
    subst h
    split at heq
    · simp at heq
    · split at heq <;> simp at heq
  rename_i irF hirF
  split at h <;> simp at h

theorem processRows_not_outOfRange (ys : List Row)
    (hwide : ∀ r ∈ ys, isRowEmpty r = false → 5 ≤ r.length) :
    ∀ i n k, processRows i ys ≠ Except.error (IngestError.outOfRange n k) := by
  induction ys with
  | nil =>
    intro i n k h
    simp [processRows] at h
  | cons r rest ih =>
    intro i n k h
    simp only [processRows] at h
    cases hr : isRowEmpty r
    · rw [hr] at h
      simp only [Bool.false_eq_true, reduceIte] at h
      split at h
      · rename_i e heq
        injection h with h
        subst h
        have hlen : 5 ≤ r.length := hwide r (by simp) hr
        unfold parseRow at heq
        rw [if_pos hlen] at heq
        exact mkObligation_not_outOfRange _ _ _ _ _ _ n k heq
      · split at h
        · rename_i e2 heq2
          injection h with h
          subst h
          exact ih (fun x hx => hwide x (by simp [hx])) (i + 1) n k heq2
        · simp at h
    · rw [hr] at h
      simp only [reduceIte] at h
      exact ih (fun x hx => hwide x (by simp [hx])) (i + 1) n k h

/-- C10.  The ingestion loop reads cells 0–4 of every non-blank data
row with no bounds check.  Whenever every non-blank data row has at least
five cells, no out-of-range access (modelled by `IngestError.outOfRange`)
occurs; the witness shows a non-blank four-cell row making the cell
lookup partial. -/
theorem c10_cell_access_in_bounds (rows : List Row)
    (hwide : ∀ r ∈ rows.drop 1, isRowEmpty r = false → 5 ≤ r.length) :
    ∀ n k, getObligations rows ≠ Except.error (IngestError.outOfRange n k) := by
  intro n k h
  unfold getObligations at h
  split at h
  · simp at h
  · exact processRows_not_outOfRange _ hwide 0 n k h

theorem c10_cell_access_in_bounds_witness :
    getObligations [["d", "t", "rb", "ir", "mp"], ["Rent", "bill", "", "", "1200"]] ≠
      Except.error (IngestError.outOfRange 2 4)
    ∧ getObligations [["d", "t", "rb", "ir", "mp"], ["Rent", "bill", "", "1200"]] =
        Except.error (IngestError.outOfRange 2 4) :=
  ⟨c10_cell_access_in_bounds [["d", "t", "rb", "ir", "mp"], ["Rent", "bill", "", "", "1200"]]
      (by decide) 2 4,
   by decide⟩

theorem collectResponse_failure (chunks : List String) (m : String) (rest : List GenEvent) :
    ∀ acc, collectResponse (chunks.map GenEvent.chunk ++ GenEvent.failure m :: rest) acc =
      Except.error m := by
  induction chunks with
  | nil => intro acc; rfl
  | cons c cs ih =>
    intro acc
    simp only [List.map_cons, List.cons_append, collectResponse]
    exact ih (acc ++ c)

/-- C6.  If the generation backend reports an error after any number
of streamed chunks, the exchange fails with a generation error that
propagates and aborts the run: `runPipeline` returns that error, so the
Output Writer is never reached and no artifact — not even a partial one —
is produced for the run. -/
theorem c6_generation_error_aborts_run
    (cwd : String) (now : GoTime) (dataRows : List Row) (income : Dec) (goal : String)
    (excludeThink : Bool) (outDir : String) (obs : List Obligation)
    (hobs : getObligations dataRows = Except.ok obs)
    (chunks : List String) (m : String) (rest : List GenEvent) :
    runPipeline cwd now dataRows income goal excludeThink outDir
        (chunks.map GenEvent.chunk ++ GenEvent.failure m :: rest) =
      Except.error ("error generating AI response: " ++ m)
    ∧ ∀ result : Artifact × String,
        runPipeline cwd now dataRows income goal excludeThink outDir
            (chunks.map GenEvent.chunk ++ GenEvent.failure m :: rest) ≠
          Except.ok result := by
  have hrun : runPipeline cwd now dataRows income goal excludeThink outDir
      (chunks.map GenEvent.chunk ++ GenEvent.failure m :: rest) =
      Except.error ("error generating AI response: " ++ m) := by
    unfold runPipeline
    rw [hobs]
    unfold promptOllama
    rw [collectResponse_failure chunks m rest ""]
  exact ⟨hrun, fun result h => by rw [hrun] at h; exact absurd h (by simp)⟩

theorem c6_generation_error_aborts_run_witness :
    runPipeline "/home/user" ⟨2025, 10, 12, 5, 6, 7, 0⟩
        [["d", "t", "rb", "ir", "mp"], ["Rent", "bill", "", "", "1200"]]
        ⟨2000, 0⟩ "payoff debt quickly" true "./"
        [GenEvent.chunk "Step 1: ", GenEvent.failure "connection reset"] =
      Except.error ("error generating AI response: " ++ "connection reset") :=
  (c6_generation_error_aborts_run "/home/user" ⟨2025, 10, 12, 5, 6, 7, 0⟩
    [["d", "t", "rb", "ir", "mp"], ["Rent", "bill", "", "", "1200"]]
    ⟨2000, 0⟩ "payoff debt quickly" true "./"
    [⟨"Rent", "bill", ⟨0, 0⟩, ⟨0, 0⟩, ⟨1200, 0⟩⟩] (by decide)
    ["Step 1: "] "connection reset" []).1

theorem substr_between (a b c : String) : b.data <:+: ((a ++ b) ++ c).data :=
  ⟨a.data, c.data, by simp [String.data_append]⟩

theorem buildPrompt_decomp (income : Dec) (fo goal : String) :
    buildPrompt income fo goal =
      ((promptPersona ++ Dec.fmtF2 income ++ promptAfterIncome) ++ fo)
        ++ (promptAfterObligations ++ goal ++ promptGuidelines) := by
  unfold buildPrompt
  simp [String.append_assoc]

theorem buildPrompt_contains_fo (income : Dec) (fo goal : String) :
    fo.data <:+: (buildPrompt income fo goal).data := by
  rw [buildPrompt_decomp]
  exact substr_between _ _ _

theorem buildPrompt_contains_goal (income : Dec) (fo goal : String) :
    goal.data <:+: (buildPrompt income fo goal).data := by
  refine ⟨(promptPersona ++ Dec.fmtF2 income ++ promptAfterIncome ++ fo
    ++ promptAfterObligations).data, promptGuidelines.data, ?_⟩
  simp [buildPrompt, String.data_append, List.append_assoc]

/-- C3.  The synthesized prompt is a single string whose components
appear in order: persona framing, the monthly income formatted to two
decimal places (income `2000.0` yields the literal substring `$2000.00`),
the serialized obligations payload verbatim, the goal text verbatim, then
the guideline clauses.  The end-to-end scenario of the spec (Card A /
Loan B with interest rate `0.0599` normalized to `5.99`) is checked
concretely through ingestion, serialization and prompt synthesis. -/
theorem c3_prompt_order_and_scenario :
    (∀ (income : Dec) (fo goal : String),
      buildPrompt income fo goal =
        promptPersona ++ Dec.fmtF2 income ++ promptAfterIncome ++ fo
          ++ promptAfterObligations ++ goal ++ promptGuidelines)
    ∧ Dec.fmtF2 ⟨2000, 0⟩ = "2000.00"
    ∧ (∀ fo goal : String, "$2000.00".data <:+: (buildPrompt ⟨2000, 0⟩ fo goal).data)
    ∧ (∀ (income : Dec) (fo goal : String), fo.data <:+: (buildPrompt income fo goal).data)
    ∧ (∀ (income : Dec) (fo goal : String), goal.data <:+: (buildPrompt income fo goal).data)
    ∧ getObligations
        [["Description", "Type", "Remaining Balance", "Interest Rate", "Monthly Payment"],
         ["Card A", "credit-card", "", "", "150.00"],
         ["Loan B", "loan", "", "0.0599", "300.00"]] =
      Except.ok [⟨"Card A", "credit-card", ⟨0, 0⟩, ⟨0, 0⟩, ⟨150, 0⟩⟩,
                 ⟨"Loan B", "loan", ⟨0, 0⟩, ⟨599, 2⟩, ⟨300, 0⟩⟩]
    ∧ formatObligations
        [⟨"Card A", "credit-card", ⟨0, 0⟩, ⟨0, 0⟩, ⟨150, 0⟩⟩,
         ⟨"Loan B", "loan", ⟨0, 0⟩, ⟨599, 2⟩, ⟨300, 0⟩⟩] =
      "\x7b\"description\":\"Card A\",\"type\":\"credit-card\",\"monthly_payment\":150\x7d\x7b\"description\":\"Loan B\",\"type\":\"loan\",\"interest_rate\":5.99,\"monthly_payment\":300\x7d"
    ∧ ("\x7b\"description\":\"Card A\",\"type\":\"credit-card\",\"monthly_payment\":150\x7d\x7b\"description\":\"Loan B\",\"type\":\"loan\",\"interest_rate\":5.99,\"monthly_payment\":300\x7d").data
        <:+:
        (buildPrompt ⟨2000, 0⟩
          "\x7b\"description\":\"Card A\",\"type\":\"credit-card\",\"monthly_payment\":150\x7d\x7b\"description\":\"Loan B\",\"type\":\"loan\",\"interest_rate\":5.99,\"monthly_payment\":300\x7d"
          "payoff debt quickly").data
    ∧ "payoff debt quickly".data <:+:
        (buildPrompt ⟨2000, 0⟩
          "\x7b\"description\":\"Card A\",\"type\":\"credit-card\",\"monthly_payment\":150\x7d\x7b\"description\":\"Loan B\",\"type\":\"loan\",\"interest_rate\":5.99,\"monthly_payment\":300\x7d"
          "payoff debt quickly").data := by
  refine ⟨fun income fo goal => rfl, by decide, ?_, buildPrompt_contains_fo, buildPrompt_contains_goal,
    by decide, by decide, buildPrompt_contains_fo _ _ _, buildPrompt_contains_goal _ _ _⟩
  intro fo goal
  have hsplit : promptPersona ++ Dec.fmtF2 ⟨2000, 0⟩ =
      "You are a cost-efficient financial planner.\nMy monthly income is " ++ "$2000.00" := by
    decide
  have hb : buildPrompt ⟨2000, 0⟩ fo goal =
      ("You are a cost-efficient financial planner.\nMy monthly income is " ++ "$2000.00")
        ++ (promptAfterIncome ++ fo ++ promptAfterObligations ++ goal ++ promptGuidelines) := by
    unfold buildPrompt
    rw [← hsplit]
    simp [String.append_assoc]
  rw [hb]
  exact substr_between _ _ _

theorem splitFirstAux_acc (pat : List Char) : ∀ (s acc : List Char),
    splitFirstAux pat s acc =
      match splitFirstAux pat s [] with
      | none => none
      | some (pre, post) => some (acc.reverse ++ pre, post) := by
  intro s
  induction s with
  | nil => intro acc; rfl
  | cons d rest ih =>
    intro acc
    by_cases hp : pat.isPrefixOf (d :: rest)
    · simp only [splitFirstAux, hp, reduceIte, List.reverse_nil, List.nil_append, List.append_nil]
    · simp only [splitFirstAux, hp, Bool.false_eq_true, reduceIte]
      rw [ih (d :: acc), ih [d]]
      cases splitFirstAux pat rest [] with
      | none => rfl
      | some pr => simp

theorem isPrefixOf_self_append : ∀ (l r : List Char), l.isPrefixOf (l ++ r) = true
  | [], _ => by simp [List.isPrefixOf]
  | c :: l, r => by
    simp only [List.cons_append, List.isPrefixOf, beq_self_eq_true, Bool.true_and]
    exact isPrefixOf_self_append l r

theorem splitFirst_none (pat : List Char) (p : Char) (ps : List Char) (hpat : pat = p :: ps) :
    ∀ (s : List Char), p ∉ s → splitFirst pat s = none := by
  intro s
  induction s with
  | nil => intro _; rfl
  | cons d rest ih =>
    intro hp
    have hd : p ≠ d := fun h => hp (h ▸ List.mem_cons_self d rest)
    have hcond : pat.isPrefixOf (d :: rest) = false := by
      rw [hpat]
      simp only [List.isPrefixOf]
      simp [beq_eq_false_iff_ne, hd]
    unfold splitFirst splitFirstAux
    rw [hcond]
    simp only [Bool.false_eq_true, reduceIte]
    rw [splitFirstAux_acc]
    have := ih (fun hm => hp (List.mem_cons_of_mem d hm))
    unfold splitFirst at this
    rw [this]

theorem splitFirst_boundary (pat : List Char) (p : Char) (ps : List Char) (hpat : pat = p :: ps) :
    ∀ (a r : List Char), p ∉ a → splitFirst pat (a ++ pat ++ r) = some (a, r) := by
  intro a
  induction a with
  | nil =>
    intro r _
    have hpre : pat.isPrefixOf (pat ++ r) = true := isPrefixOf_self_append pat r
    unfold splitFirst splitFirstAux
    rw [hpat] at hpre ⊢
    simp only [List.nil_append, List.cons_append] at hpre ⊢
    rw [hpre]
    simp only [reduceIte, List.reverse_nil, List.length_cons, List.drop_succ_cons,
      List.drop_left]
  | cons d a ih =>
    intro r hp
    have hd : p ≠ d := fun h => hp (h ▸ List.mem_cons_self d a)
    have hcond : pat.isPrefixOf (d :: (a ++ pat ++ r)) = false := by
      rw [hpat]
      simp only [List.isPrefixOf]
      simp [beq_eq_false_iff_ne, hd]
    have hstep : ((d :: a) ++ pat ++ r : List Char) = d :: (a ++ pat ++ r) := by simp
    unfold splitFirst
    rw [hstep]
    unfold splitFirstAux
    rw [hcond]
    simp only [Bool.false_eq_true, reduceIte]
    rw [splitFirstAux_acc]
    have := ih r (fun hm => hp (List.mem_cons_of_mem d hm))
    unfold splitFirst at this
    rw [this]
    simp

theorem splitFirst_append_none (pat : List Char) (p : Char) (ps : List Char) (hpat : pat = p :: ps) :
    ∀ (x y : List Char), p ∉ x → splitFirst pat y = none → splitFirst pat (x ++ y) = none := by
  intro x
  induction x with
  | nil => intro y _ hy; simpa using hy
  | cons d x ih =>
    intro y hp hy
    have hd : p ≠ d := fun h => hp (h ▸ List.mem_cons_self d x)
    have hcond : pat.isPrefixOf (d :: (x ++ y)) = false := by
      rw [hpat]
      simp only [List.isPrefixOf]
      simp [beq_eq_false_iff_ne, hd]
    have hstep : ((d :: x) ++ y : List Char) = d :: (x ++ y) := by simp
    unfold splitFirst
    rw [hstep]
    unfold splitFirstAux
    rw [hcond]
    simp only [Bool.false_eq_true, reduceIte]
    rw [splitFirstAux_acc]
    have := ih y (fun hm => hp (List.mem_cons_of_mem d hm)) hy
    unfold splitFirst at this
    rw [this]

theorem dropLeadWs_subset (l : List Char) : dropLeadWs l ⊆ l :=
  (List.dropWhile_sublist reIsSpace).subset

theorem dropTrailWs_subset (l : List Char) : dropTrailWs l ⊆ l := by
  have h : List.Sublist (dropTrailWs l) l := by
    have h1 : List.Sublist (l.reverse.dropWhile reIsSpace) l.reverse :=
      List.dropWhile_sublist reIsSpace
    have h2 := h1.reverse
    rwa [List.reverse_reverse] at h2
  exact h.subset

theorem stripThinkAux_no_open (s : List Char) (hs : '<' ∉ s) :
    ∀ f, stripThinkAux f s = s := by
  intro f
  cases f with
  | zero => rfl
  | succ f =>
    unfold stripThinkAux
    simp only [splitFirst_none openTag '<' "think>".data rfl s hs]

theorem splitFirst_open_after_close (z : List Char) (hz : '<' ∉ z) :
    splitFirst openTag (closeTag ++ z) = none := by
  have h1 : splitFirst openTag ("/think>".data ++ z) = none :=
    splitFirst_append_none openTag '<' "think>".data rfl "/think>".data z (by decide)
      (splitFirst_none openTag '<' "think>".data rfl z hz)
  have hstep : (closeTag ++ z : List Char) = '<' :: ("/think>".data ++ z) := rfl
  have hcond : openTag.isPrefixOf ('<' :: ("/think>".data ++ z)) = false := by
    rw [show ("/think>".data ++ z : List Char) = '/' :: ("think>".data ++ z) from rfl]
    simp [openTag, List.isPrefixOf]
  rw [hstep]
  unfold splitFirst splitFirstAux
  rw [hcond]
  simp only [Bool.false_eq_true, reduceIte]
  rw [splitFirstAux_acc]
  unfold splitFirst at h1
  rw [h1]

theorem stripThink_single (a b c : String)
    (ha : '<' ∉ a.data) (hb : '<' ∉ b.data) (hc : '<' ∉ c.data) :
    stripThink (a ++ "<think>" ++ b ++ "</think>" ++ c) =
      ⟨dropTrailWs a.data ++ dropLeadWs c.data⟩ := by
  have hs : (a ++ "<think>" ++ b ++ "</think>" ++ c).data
      = a.data ++ openTag ++ (b.data ++ closeTag ++ c.data) := by
    simp [String.data_append, openTag, closeTag, List.append_assoc]
  unfold stripThink
  rw [hs]
  unfold stripThinkAux
  simp only [splitFirst_boundary openTag '<' "think>".data rfl a.data _ ha,
    splitFirst_boundary closeTag '<' "/think>".data rfl b.data _ hb,
    stripThinkAux_no_open (dropLeadWs c.data) (fun hm => hc (dropLeadWs_subset _ hm))]

theorem replaceAllAux_no_occ (pat rep s : List Char) (h : splitFirst pat s = none) :
    ∀ f, replaceAllAux pat rep f s = s := by
  intro f
  cases f with
  | zero => rfl
  | succ f =>
    unfold replaceAllAux
    simp only [h]

theorem replaceAll_single_pass (pat rep : List Char) (p : Char) (ps : List Char)
    (hpat : pat = p :: ps) (a r : List Char) (ha : p ∉ a)
    (hr : splitFirst pat r = none) (f : Nat) :
    replaceAllAux pat rep (f + 1) (a ++ pat ++ r) = a ++ rep ++ r := by
  unfold replaceAllAux
  simp only [splitFirst_boundary pat p ps hpat a r ha, replaceAllAux_no_occ pat rep r hr]

theorem replaceDelims_single (a b c : String)
    (ha : '<' ∉ a.data) (hb : '<' ∉ b.data) (hc : '<' ∉ c.data) :
    processOutput false (a ++ "<think>" ++ b ++ "</think>" ++ c) =
      a ++ startDelim ++ b ++ endDelim ++ c := by
  have hs : (a ++ "<think>" ++ b ++ "</think>" ++ c).data
      = a.data ++ "<think>".data ++ (b.data ++ "</think>".data ++ c.data) := by
    simp [String.data_append, List.append_assoc]
  have hr1 : splitFirst "<think>".data (b.data ++ "</think>".data ++ c.data) = none := by
    have hy : splitFirst "<think>".data ("</think>".data ++ c.data) = none :=
      splitFirst_open_after_close c.data hc
    have h2 := splitFirst_append_none "<think>".data '<' "think>".data rfl b.data
      ("</think>".data ++ c.data) hb hy
    simpa [List.append_assoc] using h2
  have hinner : replaceAllStr (a ++ "<think>" ++ b ++ "</think>" ++ c) "<think>" startDelim
      = ⟨a.data ++ startDelim.data ++ (b.data ++ "</think>".data ++ c.data)⟩ := by
    unfold replaceAllStr
    rw [hs]
    rw [replaceAll_single_pass "<think>".data startDelim.data '<' "think>".data rfl a.data _
      ha hr1]
  have houter : (a.data ++ startDelim.data ++ (b.data ++ "</think>".data ++ c.data))
      = (a.data ++ startDelim.data ++ b.data) ++ "</think>".data ++ c.data := by
    simp [List.append_assoc]
  have hx : '<' ∉ (a.data ++ startDelim.data ++ b.data) := by
    intro hm
    rcases List.mem_append.mp hm with hm1 | hm2
    · rcases List.mem_append.mp hm1 with hm3 | hm4
      · exact ha hm3
      · exact absurd hm4 (by decide)
    · exact hb hm2
  have hr2 : splitFirst "</think>".data c.data = none :=
    splitFirst_none "</think>".data '<' "/think>".data rfl c.data hc
  show replaceAllStr (replaceAllStr (a ++ "<think>" ++ b ++ "</think>" ++ c) "<think>" startDelim)
      "</think>" endDelim = a ++ startDelim ++ b ++ endDelim ++ c
  rw [hinner]
  unfold replaceAllStr
  rw [show ((⟨a.data ++ startDelim.data ++ (b.data ++ "</think>".data ++ c.data)⟩ : String)).data
      = (a.data ++ startDelim.data ++ b.data) ++ "</think>".data ++ c.data from houter]
  rw [replaceAll_single_pass "</think>".data endDelim.data '<' "/think>".data rfl _ _ hx hr2]
  exact congrArg String.mk
    (by simp [String.data_append, List.append_assoc, startDelim, endDelim])

theorem not_marker_sub (pat l : List Char) (hp : '<' ∈ pat) (h : '<' ∉ l) :
    ¬ pat <:+: l := by
  rintro ⟨s, t, heq⟩
  exact h (heq ▸ List.mem_append.mpr (Or.inl (List.mem_append.mpr (Or.inr hp))))

/-- C4.  Reply post-processing for a reply made of marker-free text
`a`, a `<think>…</think>` reasoning segment, and marker-free text `c`.
With exclusion enabled the segment is removed together with the adjacent
whitespace (blank lines), so `A<think>reasoning</think>B` becomes `AB`,
and no sentinel marker remains.  With exclusion disabled each sentinel is
replaced by its human-readable delimiter and neither raw marker remains. -/
theorem c4_think_block_processing (a b c : String)
    (ha : '<' ∉ a.data) (hb : '<' ∉ b.data) (hc : '<' ∉ c.data) :
    processOutput true (a ++ "<think>" ++ b ++ "</think>" ++ c) =
      ⟨dropTrailWs a.data ++ dropLeadWs c.data⟩
    ∧ ¬ "<think>".data <:+: (processOutput true (a ++ "<think>" ++ b ++ "</think>" ++ c)).data
    ∧ ¬ "</think>".data <:+: (processOutput true (a ++ "<think>" ++ b ++ "</think>" ++ c)).data
    ∧ processOutput false (a ++ "<think>" ++ b ++ "</think>" ++ c) =
        a ++ startDelim ++ b ++ endDelim ++ c
    ∧ ¬ "<think>".data <:+: (processOutput false (a ++ "<think>" ++ b ++ "</think>" ++ c)).data
    ∧ ¬ "</think>".data <:+:
        (processOutput false (a ++ "<think>" ++ b ++ "</think>" ++ c)).data := by
  have h1 : processOutput true (a ++ "<think>" ++ b ++ "</think>" ++ c) =
      ⟨dropTrailWs a.data ++ dropLeadWs c.data⟩ := stripThink_single a b c ha hb hc
  have h4 := replaceDelims_single a b c ha hb hc
  have hD : '<' ∉ (dropTrailWs a.data ++ dropLeadWs c.data) := by
    intro hm
    rcases List.mem_append.mp hm with hm1 | hm2
    · exact ha (dropTrailWs_subset _ hm1)
    · exact hc (dropLeadWs_subset _ hm2)
  have hE : '<' ∉ (a ++ startDelim ++ b ++ endDelim ++ c).data := by
    intro hm
    simp only [String.data_append, List.append_assoc, List.mem_append] at hm
    rcases hm with hm | hm | hm | hm | hm
    · exact ha hm
    · exact absurd hm (by decide)
    · exact hb hm
    · exact absurd hm (by decide)
    · exact hc hm
  refine ⟨h1, ?_, ?_, h4, ?_, ?_⟩
  · rw [h1]
    exact not_marker_sub _ _ (by decide) hD
  · rw [h1]
    exact not_marker_sub _ _ (by decide) hD
  · rw [h4]
    exact not_marker_sub _ _ (by decide) hE
  · rw [h4]
    exact not_marker_sub _ _ (by decide) hE

theorem c4_think_block_processing_witness :
    processOutput true "A<think>reasoning</think>B" = "AB"
    ∧ processOutput false "A<think>reasoning</think>B" =
        "A---\n### Started thinkingreasoning### Ended thinking\n---B" := by
  have h := c4_think_block_processing "A" "reasoning" "B" (by decide) (by decide) (by decide)
  have hstr : ("A" : String) ++ "<think>" ++ "reasoning" ++ "</think>" ++ "B" =
      "A<think>reasoning</think>B" := by decide
  constructor
  · have h1 := h.1
    rw [hstr] at h1
    rw [h1]
    decide
  · have h4 := h.2.2.2.1
    rw [hstr] at h4
    rw [h4]
    decide

theorem digitChar_toNat (n : Nat) (h : n < 10) : (digitChar n).toNat = 48 + n := by
  interval_cases n <;> decide

theorem digitChar_isDigit (n : Nat) (h : n < 10) : (digitChar n).isDigit = true := by
  interval_cases n <;> decide

theorem digitsToNat_append_one (xs : List Char) (c : Char) :
    digitsToNat (xs ++ [c]) = digitsToNat xs * 10 + (c.toNat - 48) := by
  unfold digitsToNat
  rw [List.foldl_append]
  rfl

theorem natReprAux_eval : ∀ (fuel n : Nat), n < 10 ^ fuel →
    digitsToNat (natReprAux fuel n) = n := by
  intro fuel
  induction fuel with
  | zero =>
    intro n hn
    interval_cases n
    rfl
  | succ fuel ih =>
    intro n hn
    by_cases h10 : n < 10
    · simp only [natReprAux, h10, reduceIte]
      show digitsToNat [digitChar n] = n
      unfold digitsToNat
      simp [digitChar_toNat n h10]
    · simp only [natReprAux, h10, reduceIte]
      rw [digitsToNat_append_one]
      have hdiv : n / 10 < 10 ^ fuel := by
        rw [Nat.pow_succ] at hn
        omega
      rw [ih (n / 10) hdiv, digitChar_toNat (n % 10) (Nat.mod_lt n (by omega))]
      omega

theorem natReprAux_digits : ∀ (fuel n : Nat), ∀ c ∈ natReprAux fuel n, c.isDigit = true := by
  intro fuel
  induction fuel with
  | zero => intro n c hc; simp [natReprAux] at hc
  | succ fuel ih =>
    intro n c hc
    by_cases h10 : n < 10
    · simp only [natReprAux, h10, reduceIte, List.mem_singleton] at hc
      exact hc ▸ digitChar_isDigit n h10
    · simp only [natReprAux, h10, reduceIte, List.mem_append, List.mem_singleton] at hc
      rcases hc with hc | hc
      · exact ih (n / 10) c hc
      · exact hc ▸ digitChar_isDigit (n % 10) (Nat.mod_lt n (by omega))

theorem natReprAux_no_sep (n : Nat) (x : Char) (hx : x.isDigit = false) :
    x ∉ natReprAux (n + 1) n := by
  intro hm
  have := natReprAux_digits (n + 1) n x hm
  rw [this] at hx
  exact absurd hx (by decide)

theorem natReprAux_inj (m n : Nat)
    (h : natReprAux (m + 1) m = natReprAux (n + 1) n) : m = n := by
  have hm : m < 10 ^ (m + 1) :=
    (Nat.lt_pow_self (by norm_num) m).trans_le
      (Nat.pow_le_pow_right (by norm_num) (Nat.le_succ m))
  have hn : n < 10 ^ (n + 1) :=
    (Nat.lt_pow_self (by norm_num) n).trans_le
      (Nat.pow_le_pow_right (by norm_num) (Nat.le_succ n))
  have := natReprAux_eval (m + 1) m hm
  rw [h, natReprAux_eval (n + 1) n hn] at this
  exact this.symm

theorem sep_split_unique (x : Char) : ∀ (a a' b b' : List Char),
    x ∉ a → x ∉ a' → a ++ x :: b = a' ++ x :: b' → a = a' ∧ b = b' := by
  intro a
  induction a with
  | nil =>
    intro a' b b' _ ha' heq
    cases a' with
    | nil =>
      simp only [List.nil_append, List.cons.injEq] at heq
      exact ⟨rfl, heq.2⟩
    | cons y a' =>
      simp only [List.nil_append, List.cons_append, List.cons.injEq] at heq
      exact absurd (heq.1 ▸ List.mem_cons_self y a') ha'
  | cons y a ih =>
    intro a' b b' ha ha' heq
    cases a' with
    | nil =>
      simp only [List.cons_append, List.nil_append, List.cons.injEq] at heq
      exact absurd (heq.1.symm ▸ List.mem_cons_self y a) ha
    | cons y' a' =>
      simp only [List.cons_append, List.cons.injEq] at heq
      obtain ⟨hy, htail⟩ := heq
      have hrec := ih a' b b' (fun hm => ha (List.mem_cons_of_mem y hm))
        (fun hm => ha' (List.mem_cons_of_mem y' hm)) htail
      exact ⟨by rw [hy, hrec.1], hrec.2⟩

theorem c7_filename_collision_counterexample :
    outFileName ⟨2025, 10, 12, 5, 6, 7, 123⟩ = outFileName ⟨2026, 10, 12, 5, 6, 7, 456⟩
    ∧ (⟨2025, 10, 12, 5, 6, 7, 123⟩ : GoTime) ≠ ⟨2026, 10, 12, 5, 6, 7, 456⟩
    ∧ outFileName ⟨2025, 10, 12, 5, 6, 7, 1⟩ = outFileName ⟨2025, 10, 12, 5, 6, 7, 2⟩
    ∧ (⟨2025, 10, 12, 5, 6, 7, 1⟩ : GoTime) ≠ ⟨2025, 10, 12, 5, 6, 7, 2⟩ := by
  refine ⟨by decide, by decide, by decide, by decide⟩

/-- C7 (amended).  The artifact filename embeds the month, day, hour,
minute and second of the run time — second-level resolution, but no year
and no sub-second component — and two run times yield the same filename
exactly when those five fields coincide.  Hence runs in distinct seconds
of the same year never collide, but two runs within the same second, or at
the same month/day/time in different years, receive identical filenames
(the counterexample above). -/
theorem c7_filename_timestamp (t1 t2 : GoTime) :
    outFileName t1 = outFileName t2 ↔
      (t1.month = t2.month ∧ t1.day = t2.day ∧ t1.hour = t2.hour
        ∧ t1.minute = t2.minute ∧ t1.second = t2.second) := by
  constructor
  · intro heq
    have hd := congrArg String.data heq
    simp [outFileName, natRepr, List.append_assoc] at hd
    obtain ⟨hmonth, hd⟩ := sep_split_unique '-' _ _ _ _
      (natReprAux_no_sep t1.month '-' (by decide))
      (natReprAux_no_sep t2.month '-' (by decide)) hd
    obtain ⟨hday, hd⟩ := sep_split_unique ' ' _ _ _ _
      (natReprAux_no_sep t1.day ' ' (by decide))
      (natReprAux_no_sep t2.day ' ' (by decide)) hd
    obtain ⟨hhour, hd⟩ := sep_split_unique 'h' _ _ _ _
      (natReprAux_no_sep t1.hour 'h' (by decide))
      (natReprAux_no_sep t2.hour 'h' (by decide)) hd
    simp only [List.cons.injEq, true_and] at hd
    obtain ⟨hminute, hd⟩ := sep_split_unique 'm' _ _ _ _
      (natReprAux_no_sep t1.minute 'm' (by decide))
      (natReprAux_no_sep t2.minute 'm' (by decide)) hd
    simp only [List.cons.injEq, true_and] at hd
    obtain ⟨hsecond, _⟩ := sep_split_unique 's' _ _ _ _
      (natReprAux_no_sep t1.second 's' (by decide))
      (natReprAux_no_sep t2.second 's' (by decide)) hd
    exact ⟨natReprAux_inj _ _ hmonth, natReprAux_inj _ _ hday, natReprAux_inj _ _ hhour,
      natReprAux_inj _ _ hminute, natReprAux_inj _ _ hsecond⟩
  · rintro ⟨h1, h2, h3, h4, h5⟩
    unfold outFileName
    rw [h1, h2, h3, h4, h5]

theorem isAbsPath_append (a x : String) (ha : isAbsPath a = true) :
    isAbsPath (a ++ x) = true := by
  unfold isAbsPath at ha ⊢
  rw [String.data_append]
  cases h : a.data with
  | nil => rw [h] at ha; exact absurd ha (by decide)
  | cons c l =>
    rw [h] at ha
    simpa using ha

theorem goPathClean_rooted (p : String) (hp : isAbsPath p = true) :
    isAbsPath (goPathClean p) = true := by
  have hne : ¬ p = "" := by
    intro he
    rw [he] at hp
    exact absurd hp (by decide)
  unfold goPathClean
  simp only [hne, reduceIte, hp]
  exact isAbsPath_append "/" _ (by decide)

theorem goJoin_abs (a b : String) (ha : isAbsPath a = true) :
    isAbsPath (goJoin a b) = true := by
  have hane : ¬ a = "" := by
    intro he
    rw [he] at ha
    exact absurd ha (by decide)
  unfold goJoin
  by_cases hb : b = ""
  · simp only [hane, hb, Bool.and_eq_true, decide_eq_true_eq, false_and, reduceIte]
    exact goPathClean_rooted a ha
  · simp only [hane, hb, Bool.and_eq_true, decide_eq_true_eq, false_and, reduceIte]
    exact goPathClean_rooted _ (isAbsPath_append _ b (isAbsPath_append a "/" ha))

theorem c8_relative_outdir_counterexample :
    (writeOutFile "/home/user" ⟨2025, 10, 12, 5, 6, 7, 0⟩ "out" "payoff" true "reply").2 =
      "out/Obligation Advice 10-12 5h 6m 7s.md"
    ∧ isAbsPath
        ((writeOutFile "/home/user" ⟨2025, 10, 12, 5, 6, 7, 0⟩ "out" "payoff" true "reply").2)
        = false
    ∧ isAbsPath "/home/user" = true :=
  ⟨by decide, by decide, by decide⟩

/-- C8 (amended).  The reported artifact path is resolved against the
working directory only when the output directory is exactly `"./"` (the
flag default); in that case it is absolute whenever the working directory
is.  For any other output directory — including other relative spellings
such as `"out"` — the joined path is reported unresolved, so a relative
output directory yields a relative reported path (the counterexample
above). -/
theorem c8_reported_path (cwd : String) (now : GoTime) (outDir goal : String)
    (excl : Bool) (resp : String) :
    (outDir = "./" → isAbsPath cwd = true →
      isAbsPath (writeOutFile cwd now outDir goal excl resp).2 = true)
    ∧ (outDir ≠ "./" →
      (writeOutFile cwd now outDir goal excl resp).2 = goJoin outDir (outFileName now)) := by
  constructor
  · intro hdir hcwd
    unfold writeOutFile
    simp only [hdir, reduceIte]
    exact goJoin_abs cwd _ hcwd
  · intro hdir
    unfold writeOutFile
    simp only [hdir, reduceIte]

theorem c8_reported_path_witness :
    isAbsPath (writeOutFile "/home/user" ⟨2025, 10, 12, 5, 6, 7, 0⟩ "./" "payoff" true
        "reply").2 = true
    ∧ (writeOutFile "/home/user" ⟨2025, 10, 12, 5, 6, 7, 0⟩ "out" "payoff" true "reply").2 =
        goJoin "out" (outFileName ⟨2025, 10, 12, 5, 6, 7, 0⟩) := by
  have h := c8_reported_path "/home/user" ⟨2025, 10, 12, 5, 6, 7, 0⟩ "./" "payoff" true "reply"
  have h2 := c8_reported_path "/home/user" ⟨2025, 10, 12, 5, 6, 7, 0⟩ "out" "payoff" true "reply"
  exact ⟨h.1 rfl (by decide), h2.2 (by decide)⟩

example : parseDecimal "0.0599" = some ⟨599, 4⟩ := rfl

example : parseDecimal "150.00" = some ⟨150, 0⟩ := rfl

example : parseDecimal "-2.50" = some ⟨-25, 1⟩ := rfl

example : parseDecimal "abc" = none := rfl

example : Dec.round2 (Dec.mul100 ⟨599, 4⟩) = ⟨599, 2⟩ := rfl

example : Dec.round2 ⟨725, 2⟩ = ⟨725, 2⟩ := rfl

example : Dec.fmt ⟨599, 2⟩ = "5.99" := rfl

example : Dec.fmt ⟨150, 0⟩ = "150" := rfl

example : Dec.fmtF2 ⟨2000, 0⟩ = "2000.00" := rfl

example :
    getObligations [["d", "t", "rb", "ir", "mp"], ["Card A", "credit-card", "", "", "150.00"]] =
      Except.ok [⟨"Card A", "credit-card", ⟨0, 0⟩, ⟨0, 0⟩, ⟨150, 0⟩⟩] := by decide

example :
    serializeObligation ⟨"Loan B", "loan", ⟨0, 0⟩, ⟨599, 2⟩, ⟨300, 0⟩⟩ =
      "\x7b\"description\":\"Loan B\",\"type\":\"loan\",\"interest_rate\":5.99,\"monthly_payment\":300\x7d" := by decide

example : stripThink "A<think>reasoning</think>B" = "AB" := by decide

example :
    processOutput false "A<think>reasoning</think>B" =
      "A---\n### Started thinkingreasoning### Ended thinking\n---B" := by decide

example : goJoin "./" "x.md" = "x.md" := by decide

example : goJoin "/home/user" "x.md" = "/home/user/x.md" := by decide

example : goJoin "out" "x.md" = "out/x.md" := by decide

example : outFileName ⟨2025, 10, 12, 5, 6, 7, 0⟩ = "Obligation Advice 10-12 5h 6m 7s.md" := by decide
